import Mathlib

/-!
Shallow embedding of `src/app.py` (a single-school academic records manager
backed by SQLite, UI in Streamlit).  The four tables created by `init_db`
become Lean structures; each SQL statement issued through `run_query`
becomes a pure function on a `DB` value.  `REAL` scores are modelled as
exact rationals (`ℚ`) and `DATE` values as natural numbers ordered
chronologically (SQLite stores dates as ISO text, whose lexicographic
order is chronological).
-/

namespace App

/-- Row of table `alumnos` (`id INTEGER PRIMARY KEY, nombre TEXT, edad INTEGER, grado TEXT`). -/
structure Alumno where
  id : Nat
  nombre : String
  edad : Nat
  grado : String
deriving DecidableEq, Repr

/-- Row of table `materias` (`id INTEGER PRIMARY KEY, nombre TEXT, descripcion TEXT`). -/
structure Materia where
  id : Nat
  nombre : String
  descripcion : String
deriving DecidableEq, Repr

/-- Row of table `asignaciones` (`id INTEGER PRIMARY KEY, alumno_id, materia_id`). -/
structure Asignacion where
  id : Nat
  alumno_id : Nat
  materia_id : Nat
deriving DecidableEq, Repr

/-- Row of table `calificaciones`
(`id INTEGER PRIMARY KEY, alumno_id, materia_id, nota REAL, fecha DATE`). -/
structure Calificacion where
  id : Nat
  alumno_id : Nat
  materia_id : Nat
  nota : ℚ
  fecha : Nat
deriving DecidableEq, Repr

/-- The whole SQLite database `escuela.db`.  Tables are lists in rowid order.
`seqAsignaciones` is the AUTOINCREMENT counter of `asignaciones`, the only
table the modelled operations insert into. -/
structure DB where
  alumnos : List Alumno
  materias : List Materia
  asignaciones : List Asignacion
  calificaciones : List Calificacion
  seqAsignaciones : Nat
deriving DecidableEq, Repr

/-! ### Report generation (`generate_report_data`, src/app.py lines 79-99) -/

/-- One row of the detail DataFrame built in `generate_report_data`:
columns `Alumno, Materia, Calificacion, Fecha`. -/
structure ReportRow where
  alumno : String
  materia : String
  calificacion : ℚ
  fecha : Nat
deriving DecidableEq, Repr

/-- One row of the summary DataFrame (`df.groupby(['Alumno','Materia']).agg(...)`):
columns `Alumno, Materia, Promedio_Materia, Total_Notas`. -/
structure SummaryRow where
  alumno : String
  materia : String
  promedio : ℚ
  total : Nat
deriving DecidableEq, Repr

/-- Lexicographic strict order on character lists by code point; on UTF-8
encoded text the code-point order coincides with the byte order SQLite's
BINARY collation and pandas use for `TEXT` values. -/
def charsLt : List Char → List Char → Bool
  | [], [] => false
  | [], _ :: _ => true
  | _ :: _, [] => false
  | c :: cs, d :: ds =>
    if c.toNat < d.toNat then true
    else if d.toNat < c.toNat then false
    else charsLt cs ds

/-- Strict order on strings used by `ORDER BY` on `TEXT` columns and by the
pandas group-key sort. -/
def strLt (s1 s2 : String) : Bool := charsLt s1.data s2.data

/-- Stable insertion of `x` into `l` via the Boolean order `le`. -/
def insertLe (le : α → α → Bool) (x : α) : List α → List α
  | [] => [x]
  | y :: ys => if le x y then x :: y :: ys else y :: insertLe le x ys

/-- Stable insertion sort by the Boolean order `le`; models an SQL `ORDER BY`
(any sort agreeing with the order would do, and on the inputs used in the
theorems below the order has no ties). -/
def sortLe (le : α → α → Bool) : List α → List α
  | [] => []
  | x :: xs => insertLe le x (sortLe le xs)

/-- Order of `ORDER BY m.nombre, c.fecha DESC`: subject name ascending,
then date descending within equal names. -/
def rowLe (r1 r2 : ReportRow) : Bool :=
  strLt r1.materia r2.materia || (r1.materia == r2.materia && decide (r2.fecha ≤ r1.fecha))

/-- Rows of the `SELECT ... FROM calificaciones c JOIN alumnos a ... JOIN materias m ...
WHERE c.alumno_id = ?` in `generate_report_data`, before sorting: one row per
grade of the student and per matching join partner. -/
def reportRows (db : DB) (idAlumno : Nat) : List ReportRow :=
  (db.calificaciones.filter (fun c => c.alumno_id == idAlumno)).flatMap (fun c =>
    (db.alumnos.filter (fun a => a.id == c.alumno_id)).flatMap (fun a =>
      (db.materias.filter (fun m => m.id == c.materia_id)).map (fun m =>
        { alumno := a.nombre, materia := m.nombre, calificacion := c.nota, fecha := c.fecha })))

/-- Ascending lexicographic order on the pandas group keys `(Alumno, Materia)`. -/
def keyLe (k1 k2 : String × String) : Bool :=
  strLt k1.1 k2.1 || (k1.1 == k2.1 && !strLt k2.2 k1.2)

/-- The summary DataFrame: `df.groupby(['Alumno', 'Materia']).agg(
Promedio_Materia=('Calificacion', 'mean'), Total_Notas=('Calificacion', 'count')).reset_index()`.
pandas lists each distinct key once, sorted ascending; per group it takes the
arithmetic mean and the row count. -/
def summaryRows (rows : List ReportRow) : List SummaryRow :=
  (sortLe keyLe ((rows.map (fun r => (r.alumno, r.materia))).dedup)).map (fun k =>
    let grp := rows.filter (fun r => r.alumno == k.1 && r.materia == k.2)
    { alumno := k.1, materia := k.2,
      promedio := (grp.map (fun r => r.calificacion)).sum / (grp.length : ℚ),
      total := grp.length })

/-- `generate_report_data` (src/app.py lines 79-99): the ordered join result and,
when it is non-empty, the grouped summary; `(pd.DataFrame(), pd.DataFrame())`
— two empty tables — otherwise. -/
def generate_report_data (db : DB) (idAlumno : Nat) : List ReportRow × List SummaryRow :=
  let data := sortLe rowLe (reportRows db idAlumno)
  if data.isEmpty then ([], []) else (data, summaryRows data)

/-! ### Plan assignment ("Guardar Asignaciones" handler, src/app.py lines 235-243)

Each `run_query` call (src/app.py lines 59-75) opens a fresh connection to
`escuela.db`, executes one statement and commits it, so every statement of the
handler is its own transaction. -/

/-- `DELETE FROM asignaciones WHERE alumno_id=?` (src/app.py line 237). -/
def deleteAsignacionesDeAlumno (db : DB) (idAlumno : Nat) : DB :=
  { db with asignaciones := db.asignaciones.filter (fun a => a.alumno_id != idAlumno) }

/-- `INSERT INTO asignaciones (alumno_id, materia_id) VALUES (?,?)`
(src/app.py line 241), with the AUTOINCREMENT id. -/
def insertAsignacion (db : DB) (idAlumno idMateria : Nat) : DB :=
  { db with
    asignaciones := db.asignaciones ++
      [{ id := db.seqAsignaciones, alumno_id := idAlumno, materia_id := idMateria }],
    seqAsignaciones := db.seqAsignaciones + 1 }

/-- Lookup in `dict_materias = (nombre: id for id, nombre in materias)`
(src/app.py line 213): a Python dict comprehension keeps the LAST binding of a
duplicated key, hence the search from the end of the table. -/
def dictMateriasLookup (materias : List Materia) (nombre : String) : Option Nat :=
  (materias.reverse.find? (fun m => m.nombre == nombre)).map (fun m => m.id)

/-- One iteration of the insert loop (src/app.py lines 239-241): resolve the
selected name through `dict_materias` and insert the row.  The UI multiselect
only offers names that are keys of `dict_materias`, so the lookup always
succeeds on reachable inputs; a missing name, which would raise `KeyError` in
Python, is modelled as a no-op. -/
def planStep (materias : List Materia) (idAlumno : Nat) (d : DB) (nombre : String) : DB :=
  match dictMateriasLookup materias nombre with
  | some idMat => insertAsignacion d idAlumno idMat
  | none => d

/-- The complete "Guardar Asignaciones" handler (src/app.py lines 235-241),
`setStudentPlan` of the specification: delete every `asignaciones` row of the
student, then insert one row per selected subject name. -/
def guardarAsignaciones (db : DB) (idAlumno : Nat) (nuevas : List String) : DB :=
  nuevas.foldl (planStep db.materias idAlumno) (deleteAsignacionesDeAlumno db idAlumno)

/-- The sequence of committed database states produced by the handler: the
state right after the `DELETE` statement's own transaction commits, then the
state after each `INSERT` commits.  Faithful to `run_query`, which opens a
fresh connection and commits per statement (src/app.py lines 59-75). -/
def planSaveStates (db : DB) (idAlumno : Nat) (nuevas : List String) : List DB :=
  nuevas.scanl (planStep db.materias idAlumno) (deleteAsignacionesDeAlumno db idAlumno)

/-- The subject ids currently enrolled for a student, in rowid order: the rows
of `asignaciones` whose `alumno_id` matches, projected to `materia_id`. -/
def enrolledMateriaIds (db : DB) (idAlumno : Nat) : List Nat :=
  (db.asignaciones.filter (fun a => a.alumno_id == idAlumno)).map (fun a => a.materia_id)

/-! ### Student deletion (src/app.py lines 160-164) -/

/-- The "Borrar Alumno" handler: `DELETE FROM alumnos WHERE id=?`, then
`DELETE FROM asignaciones WHERE alumno_id=?`, then
`DELETE FROM calificaciones WHERE alumno_id=?`. -/
def borrarAlumno (db : DB) (idSel : Nat) : DB :=
  { db with
    alumnos := db.alumnos.filter (fun a => a.id != idSel),
    asignaciones := db.asignaciones.filter (fun a => a.alumno_id != idSel),
    calificaciones := db.calificaciones.filter (fun c => c.alumno_id != idSel) }

/-! ### Subject deletion (src/app.py lines 194-198) -/

/-- `df_mat[df_mat['Nombre'] == del_materia]['ID'].values[0]` (src/app.py
line 197): the id of the first `materias` row, in table order, with the
selected name. -/
def primeraMateriaId (db : DB) (nombre : String) : Option Nat :=
  (db.materias.find? (fun m => m.nombre == nombre)).map (fun m => m.id)

/-- `DELETE FROM materias WHERE id=?` (src/app.py line 198). -/
def eliminarMateria (db : DB) (idMat : Nat) : DB :=
  { db with materias := db.materias.filter (fun m => m.id != idMat) }

/-- The "Eliminar Materia" handler (src/app.py lines 196-198): resolve the
selected name to the first matching id, then delete that row.  No other
statement runs: enrollments and grades referencing the subject are untouched. -/
def eliminarMateriaHandler (db : DB) (nombre : String) : DB :=
  match primeraMateriaId db nombre with
  | some idMat => eliminarMateria db idMat
  | none => db

/-! ### Export encoding (src/app.py lines 323-336)

`df_summary.to_csv(index=False).encode('utf-8')` and the two
`to_excel(..., index=False)` calls.  A cell is exported as its textual
rendering; the byte level (UTF-8) is abstracted to characters. -/

/-- Textual rendering of a rational cell value (scores and per-subject means). -/
def ratRepr (q : ℚ) : String := toString q

/-- Column names of the summary table, the CSV header written by
`to_csv` and the header row of sheet `Resumen`. -/
def summaryHeader : List String := ["Alumno", "Materia", "Promedio_Materia", "Total_Notas"]

/-- Column names of the detail table, the header row of sheet `Historial Completo`. -/
def detailHeader : List String := ["Alumno", "Materia", "Calificacion", "Fecha"]

/-- The exported cells of one summary row, in column order, no index column. -/
def summaryFields (r : SummaryRow) : List String :=
  [r.alumno, r.materia, ratRepr r.promedio, toString r.total]

/-- The exported cells of one detail row, in column order, no index column. -/
def detailFields (r : ReportRow) : List String :=
  [r.alumno, r.materia, ratRepr r.calificacion, toString r.fecha]

/-- A character that forces CSV field quoting under the default
QUOTE_MINIMAL rule: the delimiter, the quote character, or a line break. -/
def isCsvSpecial (c : Char) : Bool := c == ',' || c == '"' || c == '\n' || c == '\r'

/-- Double every quote character, the CSV escape inside a quoted field. -/
def escapeQuotes : List Char → List Char
  | [] => []
  | c :: cs => if c == '"' then '"' :: '"' :: escapeQuotes cs else c :: escapeQuotes cs

/-- Encode one CSV field: left bare when it holds no special character,
otherwise wrapped in quotes with inner quotes doubled (QUOTE_MINIMAL). -/
def encodeField (s : String) : List Char :=
  if s.data.any isCsvSpecial then '"' :: (escapeQuotes s.data ++ ['"']) else s.data

/-- Encode one CSV record: the fields, comma separated. -/
def encodeRecord : List String → List Char
  | [] => []
  | [f] => encodeField f
  | f :: fs => encodeField f ++ ',' :: encodeRecord fs

/-- Encode a sequence of CSV records, each terminated by a newline, as
`DataFrame.to_csv` does. -/
def encodeCsvLines : List (List String) → List Char
  | [] => []
  | r :: rs => encodeRecord r ++ '\n' :: encodeCsvLines rs

/-- `df_summary.to_csv(index=False)` (src/app.py line 323): the header record
followed by one record per summary row, no index column. -/
def csvSummary (rows : List SummaryRow) : List Char :=
  encodeCsvLines (summaryHeader :: rows.map summaryFields)

/-- CSV decoding of an unquoted field: the content up to the next delimiter
or line break (not consumed). -/
def parseUnquoted : List Char → List Char × List Char
  | [] => ([], [])
  | c :: cs =>
    if c == ',' || c == '\n' then ([], c :: cs)
    else
      let p := parseUnquoted cs
      (c :: p.1, p.2)

/-- CSV decoding of a quoted field, after the opening quote: a doubled quote
is an escaped quote, a single quote closes the field. -/
def parseQuoted : List Char → List Char × List Char
  | [] => ([], [])
  | c :: cs =>
    if c == '"' then
      match cs with
      | [] => ([], [])
      | c2 :: cs2 =>
        if c2 == '"' then
          let p := parseQuoted cs2
          ('"' :: p.1, p.2)
        else ([], c2 :: cs2)
    else
      let p := parseQuoted cs
      (c :: p.1, p.2)

/-- CSV decoding of one field, quoted or bare. -/
def parseField : List Char → List Char × List Char
  | [] => ([], [])
  | c :: cs => if c == '"' then parseQuoted cs else parseUnquoted (c :: cs)

/-- CSV decoding of one record: fields separated by commas, ended by a
newline or the end of input.  `fuel` bounds the number of fields. -/
def parseRecordAux (fuel : Nat) (cs : List Char) : List (List Char) × List Char :=
  match fuel with
  | 0 => ([], cs)
  | fuel + 1 =>
    let p := parseField cs
    match p.2 with
    | [] => ([p.1], [])
    | c :: rest =>
      if c == ',' then
        let q := parseRecordAux fuel rest
        (p.1 :: q.1, q.2)
      else if c == '\n' then ([p.1], rest)
      else ([p.1], c :: rest)

/-- CSV decoding of a whole document into records of fields.  `fuel` bounds
the number of records. -/
def parseCsvAux (fuel : Nat) (cs : List Char) : List (List String) :=
  match fuel with
  | 0 => []
  | fuel + 1 =>
    if cs.isEmpty then []
    else
      let p := parseRecordAux (cs.length + 1) cs
      p.1.map String.mk :: parseCsvAux fuel p.2

/-- CSV decoding of a whole document. -/
def parseCsv (cs : List Char) : List (List String) :=
  parseCsvAux (cs.length + 1) cs

/-- The workbook written via `pd.ExcelWriter` (src/app.py lines 333-336):
sheet `Resumen` holds the summary table and sheet `Historial Completo` the
detail table, in creation order, each as its header row followed by its data
rows, with no index column (`index=False`). -/
def boletinWorkbook (resumen : List SummaryRow) (historial : List ReportRow) :
    List (String × List (List String)) :=
  [("Resumen", summaryHeader :: resumen.map summaryFields),
   ("Historial Completo", detailHeader :: historial.map detailFields)]

/-! ### Concrete databases used by the instance theorems -/

/-- Database of the C1 scenario: one student, subjects Math and Art, grades
Math 8.0 (date 20240110), Math 6.0 (date 20240215), Art 9.0 (date 20240120). -/
def dbC1 : DB :=
  { alumnos := [⟨1, "Ana Perez", 10, "1A"⟩],
    materias := [⟨1, "Math", "m"⟩, ⟨2, "Art", "a"⟩],
    asignaciones := [],
    calificaciones := [⟨1, 1, 1, 8, 20240110⟩, ⟨2, 1, 1, 6, 20240215⟩, ⟨3, 1, 2, 9, 20240120⟩],
    seqAsignaciones := 0 }

/-- Catalog with subjects A, B, C used to exercise the plan-save claims on
concrete data. -/
def dbC2 : DB :=
  { alumnos := [⟨7, "Luis Gomez", 11, "2B"⟩],
    materias := [⟨1, "A", "d"⟩, ⟨2, "B", "d"⟩, ⟨3, "C", "d"⟩],
    asignaciones := [],
    calificaciones := [],
    seqAsignaciones := 0 }

/-- Database for the C4 counterexample: a catalog with the single subject
Math (id 1) and one student. -/
def dbC4 : DB :=
  { alumnos := [⟨1, "Eva Ruiz", 12, "3A"⟩],
    materias := [⟨1, "Math", "m"⟩],
    asignaciones := [],
    calificaciones := [],
    seqAsignaciones := 0 }

/-- Database containing student 1 with no grades at all. -/
def dbC5exists : DB :=
  { alumnos := [⟨1, "Mia Sol", 9, "1A"⟩],
    materias := [⟨1, "Math", "m"⟩],
    asignaciones := [],
    calificaciones := [],
    seqAsignaciones := 0 }

/-- Database in which no student with id 1 exists. -/
def dbC5missing : DB :=
  { alumnos := [],
    materias := [⟨1, "Math", "m"⟩],
    asignaciones := [],
    calificaciones := [],
    seqAsignaciones := 0 }

/-- Database for C6: student 1 currently enrolled in subject 1 (Math); the
operator is about to save the non-empty plan (Art). -/
def dbC6 : DB :=
  { alumnos := [⟨1, "Ana Perez", 10, "1A"⟩],
    materias := [⟨1, "Math", "m"⟩, ⟨2, "Art", "a"⟩],
    asignaciones := [⟨0, 1, 1⟩],
    calificaciones := [],
    seqAsignaciones := 1 }

/-- Database for C10: two subjects, one enrollment and one grade referencing
subject 1, which is about to be deleted by name. -/
def dbC10 : DB :=
  { alumnos := [⟨1, "Ana Perez", 10, "1A"⟩],
    materias := [⟨1, "Math", "m"⟩, ⟨2, "Art", "a"⟩],
    asignaciones := [⟨0, 1, 1⟩],
    calificaciones := [⟨1, 1, 1, 8, 20240110⟩],
    seqAsignaciones := 1 }

/-! ### Helper lemmas -/

/-- Rows kept by `f · != s` never satisfy `f · == s`: a `DELETE ... WHERE`
followed by a `SELECT ... WHERE` on the same key finds nothing. -/
theorem filter_eq_of_filter_ne (f : α → Nat) (s : Nat) (l : List α) :
    (l.filter (fun a => f a != s)).filter (fun a => f a == s) = [] := by
  induction l with
  | nil => rfl
  | cons a t ih => by_cases h : f a = s <;> simp [h, ih]

/-- Splitting a list by a Boolean predicate preserves its length. -/
theorem filter_length_partition (p : α → Bool) (l : List α) :
    (l.filter p).length + (l.filter (fun a => !(p a))).length = l.length := by
  induction l with
  | nil => rfl
  | cons a t ih => cases h : p a <;> simp [h, ← ih] <;> omega

/-- Under a duplicate-free key column, exactly one row carries a present key. -/
theorem filter_key_length_one (f : α → Nat) (i : Nat) (l : List α)
    (hnd : (l.map f).Nodup) (hmem : i ∈ l.map f) :
    (l.filter (fun a => f a == i)).length = 1 := by
  induction l with
  | nil => simp at hmem
  | cons a t ih =>
    simp only [List.map_cons, List.nodup_cons] at hnd
    by_cases h : f a = i
    · have ht : t.filter (fun a => f a == i) = [] := by
        rw [List.filter_eq_nil_iff]
        intro x hx
        simp only [beq_iff_eq]
        intro hfx
        exact hnd.1 (h ▸ hfx ▸ List.mem_map_of_mem f hx)
      simp [h, ht]
    · have hmem' : i ∈ t.map f := by
        rcases List.mem_cons.mp hmem with h1 | h1
        · exact absurd h1.symm h
        · exact h1
      simpa [h] using ih hnd.2 hmem'

/-- The insert loop of the plan-save handler does not touch `materias`. -/
theorem foldl_planStep_materias (mats : List Materia) (s : Nat) (l : List String) (d : DB) :
    (l.foldl (planStep mats s) d).materias = d.materias := by
  induction l generalizing d with
  | nil => rfl
  | cons n t ih =>
    rw [List.foldl_cons, ih]
    unfold planStep
    cases dictMateriasLookup mats n <;> rfl

/-- `guardarAsignaciones` leaves the subject catalog unchanged. -/
theorem guardar_materias (db : DB) (s : Nat) (l : List String) :
    (guardarAsignaciones db s l).materias = db.materias := by
  unfold guardarAsignaciones
  rw [foldl_planStep_materias]
  rfl

/-- Effect of the insert loop on the student's own enrollment projection:
it appends exactly the ids the selected names resolve to. -/
theorem foldl_planStep_enrolled (mats : List Materia) (s : Nat) (l : List String) (d : DB) :
    ((l.foldl (planStep mats s) d).asignaciones.filter
        (fun a => a.alumno_id == s)).map (fun a => a.materia_id)
      = ((d.asignaciones.filter (fun a => a.alumno_id == s)).map (fun a => a.materia_id))
        ++ l.filterMap (dictMateriasLookup mats) := by
  induction l generalizing d with
  | nil => simp
  | cons n t ih =>
    rw [List.foldl_cons, ih]
    cases h : dictMateriasLookup mats n with
    | none => simp [planStep, h]
    | some m => simp [planStep, h, insertAsignacion]

/-- After a save, the student's stored subject ids are exactly the resolved
selection, in selection order. -/
theorem enrolled_guardar (db : DB) (s : Nat) (l : List String) :
    enrolledMateriaIds (guardarAsignaciones db s l) s
      = l.filterMap (dictMateriasLookup db.materias) := by
  unfold enrolledMateriaIds guardarAsignaciones
  rw [foldl_planStep_enrolled]
  simp [deleteAsignacionesDeAlumno, filter_eq_of_filter_ne (fun a : Asignacion => a.alumno_id)]

/-- A save for one student does not move the rows of any other student. -/
theorem guardar_other_students (db : DB) (s s2 : Nat) (l : List String) (h : s2 ≠ s) :
    (guardarAsignaciones db s l).asignaciones.filter (fun a => a.alumno_id == s2)
      = db.asignaciones.filter (fun a => a.alumno_id == s2) := by
  have step : ∀ (t : List String) (d : DB),
      (t.foldl (planStep db.materias s) d).asignaciones.filter (fun a => a.alumno_id == s2)
        = d.asignaciones.filter (fun a => a.alumno_id == s2) := by
    intro t
    induction t with
    | nil => intro d; rfl
    | cons n t ih =>
      intro d
      rw [List.foldl_cons, ih]
      cases hl : dictMateriasLookup db.materias n with
      | none => simp [planStep, hl]
      | some m => simp [planStep, hl, insertAsignacion, Ne.symm h]
  unfold guardarAsignaciones
  rw [step]
  unfold deleteAsignacionesDeAlumno
  simp only [List.filter_filter]
  refine List.filter_congr ?_
  intro a _
  by_cases ha : a.alumno_id = s2 <;> simp [ha, h]

/-- With no stored grade for the student, the report query joins to nothing and
`generate_report_data` takes its empty branch. -/
theorem report_empty_of_no_grades (db : DB) (s : Nat)
    (h : db.calificaciones.filter (fun c => c.alumno_id == s) = []) :
    generate_report_data db s = ([], []) := by
  unfold generate_report_data reportRows
  rw [h]
  rfl

/-! ### CSV round-trip lemmas -/

/-- Decoding a bare field reads exactly the special-character-free content and
stops at the delimiter. -/
theorem parseUnquoted_encode (s : List Char) (h : ∀ c ∈ s, isCsvSpecial c = false)
    (d : Char) (hd : d = ',' ∨ d = '\n') (rest : List Char) :
    parseUnquoted (s ++ d :: rest) = (s, d :: rest) := by
  induction s with
  | nil =>
    rcases hd with hd | hd <;> simp [parseUnquoted, hd]
  | cons c cs ih =>
    have hc : isCsvSpecial c = false := h c (List.mem_cons_self c cs)
    simp only [isCsvSpecial, Bool.or_eq_false_iff, beq_eq_false_iff_ne] at hc
    have ih2 := ih (fun x hx => h x (List.mem_cons_of_mem c hx))
    simp [parseUnquoted, hc.1.1.1, hc.1.2, ih2]

/-- One step of the quoted-field decoder over an ordinary character. -/
theorem parseQuoted_step (c : Char) (hq : ¬c = '"') (t : List Char) :
    parseQuoted (c :: t) = (c :: (parseQuoted t).1, (parseQuoted t).2) := by
  conv_lhs => unfold parseQuoted
  rw [if_neg (by simp [hq])]

/-- Decoding a quoted field undoes the quote doubling and stops at the closing
quote, which the encoder always follows by a delimiter or a line break. -/
theorem parseQuoted_encode (s : List Char) (d : Char) (hd : d = ',' ∨ d = '\n')
    (rest : List Char) :
    parseQuoted (escapeQuotes s ++ '"' :: d :: rest) = (s, d :: rest) := by
  induction s with
  | nil =>
    have hdq : (d == '"') = false := by
      rcases hd with hd | hd <;> simp [hd]
    simp [escapeQuotes, parseQuoted, hdq]
  | cons c cs ih =>
    by_cases hq : c = '"'
    · subst hq
      have hesc : escapeQuotes ('"' :: cs) = '"' :: '"' :: escapeQuotes cs := by
        simp [escapeQuotes]
      have hstep : ∀ t, parseQuoted ('"' :: '"' :: t)
          = ('"' :: (parseQuoted t).1, (parseQuoted t).2) := by
        intro t
        rfl
      rw [hesc, List.cons_append, List.cons_append, hstep, ih]
    · have hesc : escapeQuotes (c :: cs) = c :: escapeQuotes cs := by
        simp [escapeQuotes, hq]
      rw [hesc, List.cons_append, parseQuoted_step c hq, ih]

/-- Decoding an encoded field yields the original field content and leaves the
following delimiter in place, whether or not quoting was needed. -/
theorem parseField_encode (f : String) (d : Char) (hd : d = ',' ∨ d = '\n')
    (rest : List Char) :
    parseField (encodeField f ++ d :: rest) = (f.data, d :: rest) := by
  by_cases hq : f.data.any isCsvSpecial
  · have hrw : encodeField f ++ d :: rest
        = '"' :: (escapeQuotes f.data ++ '"' :: d :: rest) := by
      simp [encodeField, hq]
    rw [hrw]
    have hpf : parseField ('"' :: (escapeQuotes f.data ++ '"' :: d :: rest))
        = parseQuoted (escapeQuotes f.data ++ '"' :: d :: rest) := rfl
    rw [hpf]
    exact parseQuoted_encode f.data d hd rest
  · have henc : encodeField f = f.data := by simp [encodeField, hq]
    have hall : ∀ c ∈ f.data, isCsvSpecial c = false := by
      simpa [List.any_eq_false] using hq
    rw [henc]
    cases hfd : f.data with
    | nil =>
      have hdq : (d == '"') = false := by
        rcases hd with hd | hd <;> simp [hd]
      rcases hd with hd | hd <;> simp [parseField, hdq, parseUnquoted, hd]
    | cons c cs =>
      have hc : isCsvSpecial c = false := by
        refine hall c ?_
        rw [hfd]
        exact List.mem_cons_self c cs
      have hcq : (c == '"') = false := by
        simp only [isCsvSpecial, Bool.or_eq_false_iff] at hc
        exact hc.1.1.2
      have hpf : parseField ((c :: cs) ++ d :: rest)
          = parseUnquoted ((c :: cs) ++ d :: rest) := by
        simp only [List.cons_append, parseField, hcq]
        rw [if_neg (by simp)]
      have hall2 : ∀ x ∈ c :: cs, isCsvSpecial x = false := by
        rw [← hfd]
        exact hall
      rw [hpf]
      exact parseUnquoted_encode (c :: cs) hall2 d hd rest

/-- An encoded record is at most one character shorter than its field count. -/
theorem encodeRecord_length (fs : List String) : fs.length ≤ (encodeRecord fs).length + 1 := by
  induction fs with
  | nil => simp
  | cons f fs ih =>
    cases fs with
    | nil => simp [encodeRecord]
    | cons g gs =>
      have hr : encodeRecord (f :: g :: gs) = encodeField f ++ ',' :: encodeRecord (g :: gs) :=
        rfl
      rw [hr]
      simp only [List.length_cons, List.length_append]
      simp only [List.length_cons] at ih
      omega

/-- Decoding an encoded record recovers the fields and consumes the
terminating newline, given fuel for the field count. -/
theorem parseRecordAux_encode (fs : List String) : ∀ (fuel : Nat), fs ≠ [] →
    fs.length ≤ fuel → ∀ (rest : List Char),
    parseRecordAux fuel (encodeRecord fs ++ '\n' :: rest) = (fs.map String.data, rest) := by
  induction fs with
  | nil => intro fuel hne; exact absurd rfl hne
  | cons f fs ih =>
    intro fuel _ hfuel rest
    cases fuel with
    | zero => simp at hfuel
    | succ k =>
      cases fs with
      | nil =>
        have hr : encodeRecord [f] = encodeField f := rfl
        conv_lhs => unfold parseRecordAux
        rw [hr, parseField_encode f '\n' (Or.inr rfl) rest]
        simp
      | cons g gs =>
        have hr : (encodeRecord (f :: g :: gs)) ++ '\n' :: rest
            = encodeField f ++ ',' :: (encodeRecord (g :: gs) ++ '\n' :: rest) := by
          have h0 : encodeRecord (f :: g :: gs)
              = encodeField f ++ ',' :: encodeRecord (g :: gs) := rfl
          rw [h0]
          simp [List.append_assoc]
        conv_lhs => unfold parseRecordAux
        rw [hr, parseField_encode f ',' (Or.inl rfl) _]
        have hlen : (g :: gs).length ≤ k := by
          simp only [List.length_cons] at hfuel ⊢
          omega
        simp only [ih k (by simp) hlen rest]
        simp

/-- Each encoded record contributes at least its newline to the document. -/
theorem encodeCsvLines_length (recs : List (List String)) :
    recs.length ≤ (encodeCsvLines recs).length := by
  induction recs with
  | nil => simp
  | cons r rs ih =>
    simp only [encodeCsvLines, List.length_cons, List.length_append]
    omega

/-- Decoding an encoded document recovers every record, given fuel for the
record count; records must be non-empty, as every record the exporter writes
is. -/
theorem parseCsvAux_encode (recs : List (List String)) : ∀ (fuel : Nat),
    (∀ r ∈ recs, r ≠ []) → recs.length ≤ fuel →
    parseCsvAux fuel (encodeCsvLines recs) = recs := by
  induction recs with
  | nil =>
    intro fuel _ _
    cases fuel <;> simp [parseCsvAux, encodeCsvLines]
  | cons r rs ih =>
    intro fuel hne hfuel
    cases fuel with
    | zero => simp at hfuel
    | succ k =>
      have hinput : encodeCsvLines (r :: rs)
          = encodeRecord r ++ '\n' :: encodeCsvLines rs := rfl
      conv_lhs => unfold parseCsvAux
      rw [hinput]
      rw [if_neg (by simp)]
      have hflen : r.length ≤ (encodeRecord r ++ '\n' :: encodeCsvLines rs).length + 1 := by
        have h1 := encodeRecord_length r
        simp only [List.length_append, List.length_cons]
        omega
      simp only [parseRecordAux_encode r _ (hne r (List.mem_cons_self r rs)) hflen
        (encodeCsvLines rs)]
      have hmk : (r.map String.data).map String.mk = r := by
        rw [List.map_map]
        exact List.map_id r
      have hrs : parseCsvAux k (encodeCsvLines rs) = rs :=
        ih k (fun x hx => hne x (List.mem_cons_of_mem r hx))
          (by simp only [List.length_cons] at hfuel; omega)
      rw [hmk, hrs]

/-! ### Claim C1 -/

/-- C1: for a student whose stored grades are Math 8.0, Math 6.0 and Art 9.0,
`generate_report_data` returns a summary with exactly the rows
(Art, mean 9, count 1) and (Math, mean 7, count 2), and a detail table of
exactly 3 rows ordered by subject name ascending and, within a subject, by
date descending. -/
theorem claim_C1_report_example :
    generate_report_data dbC1 1 =
      ([⟨"Ana Perez", "Art", 9, 20240120⟩, ⟨"Ana Perez", "Math", 6, 20240215⟩,
        ⟨"Ana Perez", "Math", 8, 20240110⟩],
       [⟨"Ana Perez", "Art", 9, 1⟩, ⟨"Ana Perez", "Math", 7, 2⟩]) := by
  with_unfolding_all rfl

/-! ### Claim C2 -/

/-- C2: saving the plan (A, B) and then the plan (B, C) for the same student
leaves exactly the subjects B and C stored — a full replace, never the union:
the second save deletes every previous row before inserting its own. -/
theorem claim_C2_replace_not_union (db : DB) (s : Nat) (nA nB nC : String) (a b c : Nat)
    (_hA : dictMateriasLookup db.materias nA = some a)
    (hB : dictMateriasLookup db.materias nB = some b)
    (hC : dictMateriasLookup db.materias nC = some c) :
    enrolledMateriaIds (guardarAsignaciones (guardarAsignaciones db s [nA, nB]) s [nB, nC]) s
      = [b, c] := by
  rw [enrolled_guardar, guardar_materias]
  simp [List.filterMap_cons, hB, hC]

/-- Concrete instance of C2: after saving (A, B) and then (B, C) for student 7,
the stored plan is exactly (B, C), that is, the subject ids 2 and 3. -/
theorem claim_C2_replace_not_union_witness :
    enrolledMateriaIds (guardarAsignaciones (guardarAsignaciones dbC2 7 ["A", "B"]) 7 ["B", "C"]) 7
      = [2, 3] :=
  claim_C2_replace_not_union dbC2 7 "A" "B" "C" 1 2 3 (by decide) (by decide) (by decide)

/-! ### Claim C3 -/

/-- C3: saving the same selection twice in a row yields the same stored subject
ids and the same number of enrollment rows for the student as saving it once —
no duplicate accumulation across repeated saves. -/
theorem claim_C3_idempotent (db : DB) (s : Nat) (l : List String) :
    enrolledMateriaIds (guardarAsignaciones (guardarAsignaciones db s l) s l) s
        = enrolledMateriaIds (guardarAsignaciones db s l) s
      ∧ ((guardarAsignaciones (guardarAsignaciones db s l) s l).asignaciones.filter
            (fun a => a.alumno_id == s)).length
        = ((guardarAsignaciones db s l).asignaciones.filter
            (fun a => a.alumno_id == s)).length := by
  have h : enrolledMateriaIds (guardarAsignaciones (guardarAsignaciones db s l) s l) s
      = enrolledMateriaIds (guardarAsignaciones db s l) s := by
    rw [enrolled_guardar, guardar_materias, enrolled_guardar]
  refine ⟨h, ?_⟩
  have h1 := congrArg List.length h
  simpa [enrolledMateriaIds] using h1

/-! ### Claim C4 -/

/-- C4 as stated is false: a selection that names the same subject twice does
NOT collapse to one row — the insert loop stores one row per list element, so
the pair (student 1, subject 1) ends up with two enrollment rows. -/
theorem claim_C4_counterexample :
    ((guardarAsignaciones dbC4 1 ["Math", "Math"]).asignaciones.filter
        (fun a => a.alumno_id == 1 && a.materia_id == 1)).length = 2 := by
  decide

/-- C4 amended: when the selection holds no duplicate name — which the UI
multiselect guarantees, its options being the distinct keys of
`dict_materias` — and subject ids are unique (primary key), a single save
leaves pairwise-distinct subject ids for the student, hence at most one row
per (student, subject) pair, and rewrites no other student's rows. -/
theorem claim_C4_no_dup_pairs (db : DB) (s : Nat) (nuevas : List String)
    (hn : nuevas.Nodup) (hid : (db.materias.map (fun m => m.id)).Nodup) :
    (enrolledMateriaIds (guardarAsignaciones db s nuevas) s).Nodup
      ∧ (guardarAsignaciones db s nuevas).asignaciones.filter (fun a => a.alumno_id != s)
        = (deleteAsignacionesDeAlumno db s).asignaciones := by
  constructor
  · rw [enrolled_guardar]
    refine List.Nodup.filterMap ?_ hn
    intro n1 n2 m hm1 hm2
    rw [Option.mem_def] at hm1 hm2
    unfold dictMateriasLookup at hm1 hm2
    rcases Option.map_eq_some'.mp hm1 with ⟨r1, hr1, hid1⟩
    rcases Option.map_eq_some'.mp hm2 with ⟨r2, hr2, hid2⟩
    have hmem1 : r1 ∈ db.materias := List.mem_reverse.mp (List.mem_of_find?_eq_some hr1)
    have hmem2 : r2 ∈ db.materias := List.mem_reverse.mp (List.mem_of_find?_eq_some hr2)
    have hn1 : r1.nombre = n1 := by simpa using List.find?_some hr1
    have hn2 : r2.nombre = n2 := by simpa using List.find?_some hr2
    have : r1 = r2 :=
      List.inj_on_of_nodup_map hid hmem1 hmem2 (by simp [hid1, hid2])
    rw [← hn1, ← hn2, this]
  · have step : ∀ (t : List String) (d : DB),
        (t.foldl (planStep db.materias s) d).asignaciones.filter (fun a => a.alumno_id != s)
          = d.asignaciones.filter (fun a => a.alumno_id != s) := by
      intro t
      induction t with
      | nil => intro d; rfl
      | cons n t ih =>
        intro d
        rw [List.foldl_cons, ih]
        cases hl : dictMateriasLookup db.materias n with
        | none => simp [planStep, hl]
        | some m => simp [planStep, hl, insertAsignacion]
    unfold guardarAsignaciones
    rw [step]
    unfold deleteAsignacionesDeAlumno
    simp only [List.filter_filter, Bool.and_self]

/-- Concrete instance of the amended C4: a duplicate-free selection stores
pairwise-distinct subject ids for student 1 and leaves the other rows alone. -/
theorem claim_C4_no_dup_pairs_witness :
    (enrolledMateriaIds (guardarAsignaciones dbC2 7 ["A", "C"]) 7).Nodup
      ∧ (guardarAsignaciones dbC2 7 ["A", "C"]).asignaciones.filter (fun a => a.alumno_id != 7)
        = (deleteAsignacionesDeAlumno dbC2 7).asignaciones :=
  claim_C4_no_dup_pairs dbC2 7 ["A", "C"] (by decide) (by decide)

/-! ### Claim C5 -/

/-- C5's last part is false: `generate_report_data` answers with the very same
empty pair for a student that exists but has no grades and for a student id
that does not exist at all, so the result cannot distinguish the two cases. -/
theorem claim_C5_counterexample :
    generate_report_data dbC5exists 1 = generate_report_data dbC5missing 1
      ∧ (dbC5exists.alumnos.filter (fun a => a.id == 1)).length = 1
      ∧ (dbC5missing.alumnos.filter (fun a => a.id == 1)).length = 0 := by
  decide

/-- C5 amended: for a student id with zero stored grades the function returns
the explicit empty pair (empty detail and summary tables) rather than an
error; but the result is identical whether or not the student exists, so it
does not let the caller tell "ungraded" from "not found". -/
theorem claim_C5_empty_report (db db2 : DB) (s : Nat)
    (h : db.calificaciones.filter (fun c => c.alumno_id == s) = [])
    (h2 : db2.calificaciones.filter (fun c => c.alumno_id == s) = []) :
    generate_report_data db s = ([], [])
      ∧ generate_report_data db s = generate_report_data db2 s := by
  rw [report_empty_of_no_grades db s h, report_empty_of_no_grades db2 s h2]
  exact ⟨rfl, rfl⟩

/-- Concrete instance of the amended C5, at a database where student 1 exists
without grades and one where the id is absent. -/
theorem claim_C5_empty_report_witness :
    generate_report_data dbC5exists 1 = ([], [])
      ∧ generate_report_data dbC5exists 1 = generate_report_data dbC5missing 1 :=
  claim_C5_empty_report dbC5exists dbC5missing 1 (by decide) (by decide)

/-! ### Claim C6 -/

/-- C6 fails on the code: `run_query` opens a fresh connection and commits per
statement, so the delete and the inserts are separate transactions.  The first
committed state of saving the non-empty plan (Art) — the head of
`planSaveStates`, right after the `DELETE` commits — leaves student 1 with
zero enrollments, although the student had a plan before and the intended
plan is non-empty; only the following, separately committed insert restores
one. -/
theorem claim_C6_not_atomic :
    enrolledMateriaIds dbC6 1 = [1]
      ∧ (planSaveStates dbC6 1 ["Art"]).head? = some (deleteAsignacionesDeAlumno dbC6 1)
      ∧ enrolledMateriaIds (deleteAsignacionesDeAlumno dbC6 1) 1 = []
      ∧ enrolledMateriaIds (guardarAsignaciones dbC6 1 ["Art"]) 1 = [2] := by
  decide

/-! ### Claim C9 -/

/-- C9: deleting a student removes the student row and every enrollment and
grade row referencing that student id — afterwards none of them is queryable,
and the student's report is empty. -/
theorem claim_C9_delete_student_cascades (db : DB) (idSel : Nat) :
    (borrarAlumno db idSel).alumnos.filter (fun a => a.id == idSel) = []
      ∧ (borrarAlumno db idSel).asignaciones.filter (fun a => a.alumno_id == idSel) = []
      ∧ (borrarAlumno db idSel).calificaciones.filter (fun c => c.alumno_id == idSel) = []
      ∧ generate_report_data (borrarAlumno db idSel) idSel = ([], []) := by
  have h3 : (borrarAlumno db idSel).calificaciones.filter (fun c => c.alumno_id == idSel)
      = [] := filter_eq_of_filter_ne (fun c : Calificacion => c.alumno_id) idSel _
  exact ⟨filter_eq_of_filter_ne (fun a : Alumno => a.id) idSel _,
    filter_eq_of_filter_ne (fun a : Asignacion => a.alumno_id) idSel _,
    h3, report_empty_of_no_grades _ idSel h3⟩

/-! ### Claim C7 -/

/-- C7: for every (summary, detail) input pair — the tables may be empty —
the exported workbook holds exactly the two sheets named `Resumen` and
`Historial Completo`, in that order with `Resumen` first, each beginning with
its header row and holding one further row per table row, no index column. -/
theorem claim_C7_workbook_sheets (resumen : List SummaryRow) (historial : List ReportRow) :
    (boletinWorkbook resumen historial).map Prod.fst = ["Resumen", "Historial Completo"]
      ∧ (boletinWorkbook resumen historial).map (fun sh => sh.2.head?)
        = [some summaryHeader, some detailHeader]
      ∧ (boletinWorkbook resumen historial).map (fun sh => sh.2.length)
        = [resumen.length + 1, historial.length + 1] := by
  simp [boletinWorkbook]

/-! ### Claim C10 -/

/-- C10: deleting a subject removes exactly one row from `materias` — its ids
being unique as a primary key — and changes nothing else: students,
enrollments and grades are untouched, every other subject row survives, and
the enrollment and grade rows referencing the deleted id persist as dangling
references. -/
theorem claim_C10_delete_subject_frame (db : DB) (nombre : String) (i : Nat)
    (hid : (db.materias.map (fun m => m.id)).Nodup)
    (hres : primeraMateriaId db nombre = some i) :
    (eliminarMateriaHandler db nombre).materias.length + 1 = db.materias.length
      ∧ (eliminarMateriaHandler db nombre).alumnos = db.alumnos
      ∧ (eliminarMateriaHandler db nombre).asignaciones = db.asignaciones
      ∧ (eliminarMateriaHandler db nombre).calificaciones = db.calificaciones
      ∧ (eliminarMateriaHandler db nombre).materias.filter (fun m => m.id != i)
        = db.materias.filter (fun m => m.id != i) := by
  have hh : eliminarMateriaHandler db nombre = eliminarMateria db i := by
    unfold eliminarMateriaHandler
    rw [hres]
  have hmem : i ∈ db.materias.map (fun m => m.id) := by
    unfold primeraMateriaId at hres
    rcases Option.map_eq_some'.mp hres with ⟨r, hr, hidr⟩
    exact hidr ▸ List.mem_map_of_mem _ (List.mem_of_find?_eq_some hr)
  have hone : (db.materias.filter (fun m => m.id == i)).length = 1 :=
    filter_key_length_one (fun m : Materia => m.id) i db.materias hid hmem
  rw [hh]
  refine ⟨?_, rfl, rfl, rfl, ?_⟩
  · have hpart : (db.materias.filter (fun m => m.id == i)).length
        + (db.materias.filter (fun m => m.id != i)).length = db.materias.length := by
      simpa [bne] using filter_length_partition (fun m : Materia => m.id == i) db.materias
    unfold eliminarMateria
    simp only []
    omega
  · unfold eliminarMateria
    simp only [List.filter_filter, Bool.and_self]

/-- Concrete instance of C10: deleting subject Math removes exactly its
catalog row; the student, the enrollment and the grade that reference
subject 1 are all still stored. -/
theorem claim_C10_delete_subject_frame_witness :
    (eliminarMateriaHandler dbC10 "Math").materias.length + 1 = dbC10.materias.length
      ∧ (eliminarMateriaHandler dbC10 "Math").alumnos = dbC10.alumnos
      ∧ (eliminarMateriaHandler dbC10 "Math").asignaciones = dbC10.asignaciones
      ∧ (eliminarMateriaHandler dbC10 "Math").calificaciones = dbC10.calificaciones
      ∧ (eliminarMateriaHandler dbC10 "Math").materias.filter (fun m => m.id != 1)
        = dbC10.materias.filter (fun m => m.id != 1) :=
  claim_C10_delete_subject_frame dbC10 "Math" 1 (by decide) (by decide)

/-! ### Claim C8 -/

/-- C8: the delimited-text export of the summary table round-trips — for every
summary table, decoding `csvSummary` yields exactly the header record
(Alumno, Materia, Promedio_Materia, Total_Notas) followed by one record per
summary row holding that row's rendered values, in order, with no index
column; field quoting is undone by the decoder, so this holds for arbitrary
student and subject names. -/
theorem claim_C8_csv_roundtrip (rows : List SummaryRow) :
    parseCsv (csvSummary rows) = summaryHeader :: rows.map summaryFields := by
  unfold parseCsv csvSummary
  refine parseCsvAux_encode (summaryHeader :: rows.map summaryFields) _ ?_ ?_
  · intro r hr
    rcases List.mem_cons.mp hr with h | h
    · subst h
      simp [summaryHeader]
    · rcases List.mem_map.mp h with ⟨x, _, hx⟩
      rw [← hx]
      simp [summaryFields]
  · have h1 := encodeCsvLines_length (summaryHeader :: rows.map summaryFields)
    omega

end App
